import Mathlib

/-!
Shallow embedding of the streanime catalog service:
the catalog text parser (`src/backend/migrate-auto.js`, `processAnimeData`),
the public listing endpoint, the JWT stream-token issuer/verifier and the
episode resolver (`src/backend/server.js`, `src/unnamed/part_000`).

Conventions of the embedding:
* JavaScript strings are Lean `String`s; line scanning works on `List Char`.
* JavaScript numbers that hold integer counts (years, season and episode
  numbers, Unix timestamps in seconds, TTLs) are `Nat`.
* `Number.prototype.toString()` on such a value is `Nat.repr`.
* The `jsonwebtoken` library is modelled by an ideal signature: the signed
  token carries its payload and the secret it was signed with, and
  verification succeeds exactly when the secrets coincide and the token is
  not yet expired (`clockTimestamp >= exp` fails, as in the library).
-/

namespace Streanime

/-- The JavaScript white-space set used by both `String.prototype.trim`
and the regex class `\s` (ECMA-262 WhiteSpace ∪ LineTerminator). -/
def isJsWs (c : Char) : Bool :=
  let n := c.toNat
  n == 0x20 || n == 0x09 || n == 0x0A || n == 0x0B || n == 0x0C || n == 0x0D ||
  n == 0xA0 || n == 0x1680 || (0x2000 ≤ n && n ≤ 0x200A) ||
  n == 0x2028 || n == 0x2029 || n == 0x202F || n == 0x205F || n == 0x3000 ||
  n == 0xFEFF

/-- `str.trim()` on a character list: drop white space from both ends. -/
def trimList (cs : List Char) : List Char :=
  ((cs.dropWhile isJsWs).reverse.dropWhile isJsWs).reverse

/-- `str.trim()` producing a `String`. -/
def jsTrim (s : String) : String :=
  ⟨trimList s.data⟩

/-- `str.split(sep)` for a one-character separator, with JavaScript
semantics: the result is never empty, and separators at the ends produce
empty fields (`"a-".split("-") = ["a", ""]`, `"".split("-") = [""]`). -/
def splitOnChar (c : Char) : List Char → List (List Char)
  | [] => [[]]
  | x :: xs =>
    match splitOnChar c xs with
    | [] => [[]]
    | h :: t => if x = c then [] :: h :: t else (x :: h) :: t

/-- `parseInt` applied to a run of decimal digits. -/
def natOfDigits (ds : List Char) : Nat :=
  ds.foldl (fun n c => n * 10 + (c.toNat - '0'.toNat)) 0

/-- `str.padStart(2, '0')` for the episode part of a file name. -/
def padStart2 (s : String) : String :=
  if 2 ≤ s.data.length then s else ⟨List.replicate (2 - s.data.length) '0' ++ s.data⟩

/-- One character of the slug computation: after lowercasing, every
character outside `[a-z0-9]` becomes `-` (regex `[^a-z0-9]` with flag `g`). -/
def slugChar (c : Char) : Char :=
  let l := c.toLower
  if ('a' ≤ l && l ≤ 'z') || ('0' ≤ l && l ≤ '9') then l else '-'

/-- The second replace of the slug chain (regex `-+` with flag `g`,
replacement `-`): collapse every run of dashes to one dash. -/
def collapseDashes : List Char → List Char
  | [] => []
  | c :: rest =>
    let r := collapseDashes rest
    if c = '-' then
      match r with
      | '-' :: _ => r
      | _ => c :: r
    else c :: r

/-- The third replace of the slug chain (regex `^-|-$` with flag `g`):
after collapsing, at most one dash can remain at either end, and this
removes them. -/
def stripEdgeDashes (cs : List Char) : List Char :=
  let f : List Char → List Char := fun l =>
    match l with
    | '-' :: rest => rest
    | l => l
  (f ((f cs).reverse)).reverse

/-- The slug generator of `migrate-auto.js`: lowercase the name, replace
every character outside `[a-z0-9]` by `-`, collapse dash runs, strip edge
dashes. `toLowerCase` is modelled character-wise via `Char.toLower` (ASCII
case folding; every non-ASCII letter is sent to `-` by the following
replace in both the model and the source for the catalog's Latin input). -/
def slug (name : String) : String :=
  ⟨stripEdgeDashes (collapseDashes (name.data.map slugChar))⟩

/-- An episode record as stored by the migration (`animeSchema`). -/
structure Episode where
  episodeNumber : Nat
  name : String
  videoUrl : String
  fileName : String
deriving DecidableEq, Repr

/-- A season record: its number and its episode list. -/
structure Season where
  seasonNumber : Nat
  episodes : List Episode
deriving DecidableEq, Repr

/-- An anime record as stored by the migration (`animeSchema`). -/
structure Anime where
  id : String
  name : String
  year : Nat
  day : Option String
  isAiring : Bool
  seasons : List Season
deriving DecidableEq, Repr

/-- Match of the tail of the title regexes after the lazy name group: for
the airing section the pattern is white space, exactly four digits, then an
optional group of white space and a parenthesized day, anchored at the end;
for the finished section the optional group is absent.  Returns the year
and, when present, the day capture.  The greedy runs need no backtracking
here because `\s`, `\d` and the anchors partition the candidates. -/
def titleTail (airing : Bool) (cs : List Char) : Option (Nat × Option (List Char)) :=
  let (ws, r1) := cs.span isJsWs
  if ws.isEmpty then none else
  match r1 with
  | a :: b :: c :: d :: rest =>
    if a.isDigit && b.isDigit && c.isDigit && d.isDigit then
      let year := natOfDigits [a, b, c, d]
      if rest.isEmpty then some (year, none)
      else if airing then
        let (ws2, r2) := rest.span isJsWs
        if ws2.isEmpty then none else
        match r2 with
        | '(' :: r3 =>
          let (day, r4) := r3.span (fun c => c ≠ ')')
          if day.isEmpty then none else
          match r4 with
          | [')'] => some (year, some day)
          | _ => none
        | _ => none
      else none
    else none
  | _ => none

/-- The anchored title regex of `processAnimeData`: a lazy non-empty name
group followed by `titleTail`.  The lazy quantifier is realized by trying
the shortest name first (`acc` holds the candidate name read so far).
Returns the name capture, the year and the optional day capture. -/
def titleSearch (airing : Bool) (acc : List Char) :
    List Char → Option (List Char × Nat × Option (List Char))
  | [] => none
  | c :: rest =>
    match titleTail airing rest with
    | some (y, d) => some (acc ++ [c], y, d)
    | none => titleSearch airing (acc ++ [c]) rest

/-- Match of the tail of the episode regex after the lazy prefix group:
white space, a digit run (season), the letter `x`, a digit run (episode),
an optional literal `.mp4`, a pipe, and a non-empty remainder (the URL),
anchored at the end.  Returns season number, episode number and URL. -/
def epTail (cs : List Char) : Option (Nat × Nat × List Char) :=
  let (ws, r1) := cs.span isJsWs
  if ws.isEmpty then none else
  let (d1, r2) := r1.span Char.isDigit
  if d1.isEmpty then none else
  match r2 with
  | 'x' :: r3 =>
    let (d2, r4) := r3.span Char.isDigit
    if d2.isEmpty then none else
    match r4 with
    | '.' :: 'm' :: 'p' :: '4' :: '|' :: rest =>
      if rest.isEmpty then none else some (natOfDigits d1, natOfDigits d2, rest)
    | '|' :: rest =>
      if rest.isEmpty then none else some (natOfDigits d1, natOfDigits d2, rest)
    | _ => none
  | _ => none

/-- The anchored episode regex of `processAnimeData`: a lazy, possibly
empty prefix followed by `epTail`; the prefix capture is unused by the
source, so only the tail data is returned.  The lazy quantifier is realized
by scanning the split positions left to right. -/
def epSearch : List Char → Option (Nat × Nat × List Char)
  | [] => none
  | c :: rest =>
    match epTail (c :: rest) with
    | some r => some r
    | none => epSearch rest

/-- The anime record started by a title line whose captures are `nameCs`
(the name), `yr` (the year) and `dy` (the optional day): trimmed name,
slug id, day only for the airing section, empty season map. -/
def mkTitleAnime (airing : Bool) (nameCs : List Char) (yr : Nat)
    (dy : Option (List Char)) : Anime :=
  ⟨slug ⟨trimList nameCs⟩, ⟨trimList nameCs⟩, yr,
    (if airing then dy.map (fun d => (⟨trimList d⟩ : String)) else none), airing, []⟩

/-- The episode record pushed by an episode line whose captures are `sn`
(season), `en` (episode) and `urlCs` (URL): synthesized name
`Episodio N`, trimmed verbatim URL, and `SxEE.mp4` file name with the
episode number zero-padded to two digits. -/
def mkEpisode (sn en : Nat) (urlCs : List Char) : Episode :=
  ⟨en, "Episodio " ++ Nat.repr en, ⟨trimList urlCs⟩,
    Nat.repr sn ++ "x" ++ padStart2 (Nat.repr en) ++ ".mp4"⟩

/-- The parser's working state: the keyed working catalog `animeMap`
(an insertion-ordered map from slug to anime record) and the id of the
anime opened by the most recent title line (`currentAnime`; in the source
`currentAnime` always aliases `animeMap[currentId]`). -/
structure PState where
  map : List (String × Anime)
  curr : Option String
deriving DecidableEq, Repr

/-- `animeMap[id] = anime`: replace the value at an existing key in place,
or append a new binding (JavaScript object assignment). -/
def insertReplace : List (String × Anime) → String → Anime → List (String × Anime)
  | [], k, v => [(k, v)]
  | (k0, v0) :: rest, k, v =>
    if k0 = k then (k0, v) :: rest else (k0, v0) :: insertReplace rest k v

/-- Read `animeMap[id]`. -/
def lookupEntry (k : String) : List (String × Anime) → Option Anime
  | [] => none
  | (k0, v0) :: rest => if k0 = k then some v0 else lookupEntry k rest

/-- Apply an update to the record stored at a key (mutation of the object
`currentAnime` aliased by `animeMap[currentId]`). -/
def updateEntry : List (String × Anime) → String → (Anime → Anime) → List (String × Anime)
  | [], _, _ => []
  | (k0, v0) :: rest, k, f =>
    if k0 = k then (k0, f v0) :: rest else (k0, v0) :: updateEntry rest k f

/-- Lazily create the season bucket `seasons[seasonNum]` if absent and push
the episode onto its episode list. -/
def addEpisode : List Season → Nat → Episode → List Season
  | [], sn, ep => [⟨sn, [ep]⟩]
  | se :: rest, sn, ep =>
    if se.seasonNumber = sn then ⟨se.seasonNumber, se.episodes ++ [ep]⟩ :: rest
    else se :: addEpisode rest sn ep

/-- One loop iteration of `processAnimeData` over a raw line: trim it, skip
it when blank, try the title regex first, otherwise (when a context is
active and the line contains a pipe) try the episode regex, and silently
discard lines matching neither. -/
def step (airing : Bool) (s : PState) (rawLine : List Char) : PState :=
  let line := trimList rawLine
  if line.isEmpty then s else
  match titleSearch airing [] line with
  | some (nameCs, year, dayOpt) =>
    let a : Anime := mkTitleAnime airing nameCs year dayOpt
    ⟨insertReplace s.map a.id a, some a.id⟩
  | none =>
    match s.curr with
    | none => s
    | some cid =>
      if line.contains '|' then
        match epSearch line with
        | none => s
        | some (sn, en, urlCs) =>
          ⟨updateEntry s.map cid
            (fun a => { a with seasons := addEpisode a.seasons sn (mkEpisode sn en urlCs) }),
            s.curr⟩
      else s

/-- Run the parser loop over a list of raw lines from the empty state. -/
def runLines (airing : Bool) (lines : List (List Char)) : PState :=
  lines.foldl (step airing) ⟨[], none⟩

/-- Finalization of one record: sort the season buckets ascending by
`seasonNumber` and, within each season, sort episodes ascending by
`episodeNumber` (`Array.prototype.sort` with a numeric comparator is a
stable sort, as is `List.insertionSort`). -/
def finalizeAnime (a : Anime) : Anime :=
  { a with
    seasons :=
      List.insertionSort (fun s t => s.seasonNumber ≤ t.seasonNumber)
        (a.seasons.map (fun se =>
          { se with
            episodes :=
              List.insertionSort (fun e f => e.episodeNumber ≤ f.episodeNumber) se.episodes })) }

/-- `processAnimeData(data, isAiring)`: trim the blob, split it on newline,
fold the line classifier over the lines, then convert the working catalog
to an array of finalized records. -/
def processAnimeData (data : String) (airing : Bool) : List Anime :=
  let lines := splitOnChar '\n' (trimList data.data)
  (runLines airing lines).map.map (fun kv => finalizeAnime kv.2)

/-- The slug assigned by the title line `rawLine` under the given section
flag, when the (trimmed, non-blank) line matches the title pattern; `none`
when the line is not a title line.  This is exactly the key that `step`
writes for that line. -/
def titleIdOf (airing : Bool) (rawLine : List Char) : Option String :=
  let line := trimList rawLine
  if line.isEmpty then none else
  (titleSearch airing [] line).map (fun r => slug ⟨trimList r.1⟩)

/-- A JSON value, used to state what the listing endpoint actually emits
(so that the absence of an output field is expressible). -/
inductive JVal where
  | null : JVal
  | str : String → JVal
  | num : Nat → JVal
  | bool : Bool → JVal
  | arr : List JVal → JVal
  | obj : List (String × JVal) → JVal
deriving BEq, Repr

/-- The episode object built by `GET /api/animes/:type` for one stored
episode: only `episodeNumber`, `name` and `fileName` are emitted. -/
def episodeJson (ep : Episode) : List (String × JVal) :=
  [("episodeNumber", .num ep.episodeNumber),
   ("name", .str ep.name),
   ("fileName", .str ep.fileName)]

/-- The season object built by the listing endpoint. -/
def seasonJson (se : Season) : JVal :=
  .obj [("seasonNumber", .num se.seasonNumber),
        ("episodes", .arr (se.episodes.map (fun ep => .obj (episodeJson ep))))]

/-- The processed record built by the listing endpoint for one stored
anime (the element of the `processed` array of `GET /api/animes/:type`). -/
def animeToPublic (a : Anime) : JVal :=
  .obj [("id", .str a.id),
        ("name", .str a.name),
        ("year", .num a.year),
        ("day", match a.day with | some d => .str d | none => .null),
        ("isAiring", .bool a.isAiring),
        ("totalSeasons", .num a.seasons.length),
        ("totalEpisodes", .num (a.seasons.foldl (fun sum s => sum + s.episodes.length) 0)),
        ("seasons", .arr (a.seasons.map seasonJson))]

/-- `GET /api/animes/:type`: filter the store by
`isAiring = (type === 'airing')` and map each record through the
projection above (the store collaborator `Anime.find` returns records in
store order; its `select` already omits `videoUrl`, and the mapping emits
only the three episode fields either way). -/
def listAnimes (store : List Anime) (type : String) : List JVal :=
  (store.filter (fun a => a.isAiring == (type == "airing"))).map animeToPublic

/-- The process environment as the token code reads it: `JWT_SECRET` and
`TOKEN_EXPIRES` (the latter a TTL in seconds when configured). -/
structure Env where
  JWT_SECRET : Option String
  TOKEN_EXPIRES : Option Nat
deriving DecidableEq, Repr

/-- `parseInt(process.env.TOKEN_EXPIRES || '300')`. -/
def tokenExpires (env : Env) : Nat :=
  env.TOKEN_EXPIRES.getD 300

/-- A JWT payload as produced by `generateStreamToken`: the episode
reference, the issue time `iat` (seconds since the epoch) and the expiry
`exp` that `jwt.sign` derives from the `expiresIn` option as
`iat + expiresIn`. -/
structure JwtPayload where
  episodeId : String
  iat : Nat
  exp : Nat
deriving DecidableEq, Repr

/-- A signed token.  The HMAC signature is modelled ideally: the token
records the secret used to sign it, and verification compares secrets. -/
structure SignedToken where
  payload : JwtPayload
  signedWith : String
deriving DecidableEq, Repr

/-- `jwt.sign(payload, secret, { expiresIn })` after the payload's `exp`
has been filled in. -/
def jwtSign (p : JwtPayload) (secret : String) : SignedToken :=
  ⟨p, secret⟩

/-- The two failure kinds of `jwt.verify` relevant here (the route maps
both onto one 403 response, the spec's `InvalidToken`). -/
inductive VerifyError where
  | invalidSignature : VerifyError
  | expired : VerifyError
deriving DecidableEq, Repr

/-- `jwt.verify(token, secret)` at clock time `now` (seconds): reject a
wrong signature; reject an expired token — the library throws
`TokenExpiredError` exactly when `clockTimestamp >= payload.exp`;
otherwise return the payload. -/
def jwtVerify (t : SignedToken) (secret : String) (now : Nat) : Except VerifyError JwtPayload :=
  if t.signedWith ≠ secret then .error .invalidSignature
  else if t.payload.exp ≤ now then .error .expired
  else .ok t.payload

/-- The failure kinds of `generateStreamToken` in `src/unnamed/part_000`:
a missing or short secret (`JWT_SECRET no configurado correctamente`, the
spec's `ConfigurationError`) and a missing reference (`episodeId es
requerido`, the spec's `ValidationError`). -/
inductive TokenGenError where
  | configError : TokenGenError
  | validationError : TokenGenError
deriving DecidableEq, Repr

/-- `generateStreamToken(episodeId)` from `src/unnamed/part_000`: fail when
the secret is absent or shorter than 32 characters; fail when the episode
reference is empty (falsy); otherwise sign `{ episodeId, iat: now }` with
`expiresIn = tokenExpires`, which sets `exp = now + tokenExpires`. -/
def generateStreamToken (env : Env) (now : Nat) (episodeId : String) :
    Except TokenGenError SignedToken :=
  match env.JWT_SECRET with
  | none => .error .configError
  | some secret =>
    if secret.length < 32 then .error .configError
    else if episodeId = "" then .error .validationError
    else .ok (jwtSign ⟨episodeId, now, now + tokenExpires env⟩ secret)

/-- The two 404 outcomes of `GET /api/stream/:episodeId` after a verified
token (`Anime no encontrado` and `Episodio no encontrado`). -/
inductive StreamError where
  | animeNotFound : StreamError
  | episodeNotFound : StreamError
deriving DecidableEq, Repr

/-- The success payload of the stream route:
`{ videoUrl, animeName, episodeNumber }`. -/
structure ResolveOk where
  videoUrl : String
  animeName : String
  episodeNumber : Nat
deriving DecidableEq, Repr

/-- `decoded.episodeId.split('-')` as a list of string segments. -/
def refSegments (ref : String) : List String :=
  (splitOnChar '-' ref.data).map (fun cs => (⟨cs⟩ : String))

/-- The lookup of `GET /api/stream/:episodeId` on a verified reference:
destructure the split into its first three segments
(`[animeId, seasonNum, episodeNum]`, the latter two `undefined` when the
split is shorter), find the anime by id, then find the season and episode
whose numbers' `toString()` equals the respective segment under strict
string equality (a comparison with `undefined` is false). -/
def resolveEpisode (store : List Anime) (ref : String) : Except StreamError ResolveOk :=
  let parts := refSegments ref
  let animeId := parts.headD ""
  match store.find? (fun a => a.id == animeId) with
  | none => .error .animeNotFound
  | some anime =>
    let season := anime.seasons.find? (fun s => parts[1]? == some (Nat.repr s.seasonNumber))
    let episode := season.bind
      (fun se => se.episodes.find? (fun e => parts[2]? == some (Nat.repr e.episodeNumber)))
    match episode with
    | none => .error .episodeNotFound
    | some ep => .ok ⟨ep.videoUrl, anime.name, ep.episodeNumber⟩

/-- A decimal segment "carries a leading zero": at least two characters,
the first one `0`. -/
def hasLeadingZero (s : String) : Bool :=
  match s.data with
  | '0' :: _ :: _ => true
  | _ => false

/-- Concrete stored anime used to instantiate the resolver theorems. -/
def narutoAnime : Anime :=
  ⟨"naruto", "Naruto", 2012, none, false,
    [⟨1, [⟨1, "Episodio 1", "http://cdn/x.mp4", "1x01.mp4"⟩]⟩]⟩

/-- Concrete stored anime whose slug contains hyphens. -/
def skAnime : Anime :=
  ⟨"shingeki-no-kyojin", "Shingeki no Kyojin", 2013, none, false,
    [⟨1, [⟨2, "Episodio 2", "http://cdn/snk.mp4", "1x02.mp4"⟩]⟩]⟩

/-- A 32-character signing secret for the token witnesses. -/
def goodSecret : String := "0123456789abcdef0123456789abcdef"

/-- An environment with a strong secret and the default TTL. -/
def goodEnv : Env := ⟨some goodSecret, none⟩

/-! ### Decimal representation lemmas

`Number.prototype.toString()` (modelled by `Nat.repr`) never produces a
leading zero, which drives the resolver's padded-segment behavior. -/

theorem toDigitsCore_head_ne_zero (fuel : Nat) :
    ∀ (n : Nat) (ds : List Char), 1 ≤ n → n < 10 ^ fuel →
      ∃ c cs, Nat.toDigitsCore 10 fuel n ds = c :: cs ∧ c ≠ '0' := by
  induction fuel with
  | zero =>
    intro n ds h1 h2
    simp only [pow_zero] at h2
    omega
  | succ fuel ih =>
    intro n ds h1 h2
    rw [Nat.toDigitsCore]
    by_cases h : n / 10 = 0
    · have hn10 : n < 10 := by omega
      have hmod : n % 10 = n := Nat.mod_eq_of_lt hn10
      simp only [h, if_pos, hmod]
      refine ⟨Nat.digitChar n, ds, rfl, ?_⟩
      interval_cases n <;> decide
    · simp only [h, if_neg, ite_false]
      refine ih (n / 10) _ ?_ ?_
      · omega
      · rw [Nat.div_lt_iff_lt_mul (by norm_num)]
        calc n < 10 ^ (fuel + 1) := h2
        _ = 10 ^ fuel * 10 := by rw [pow_succ]

theorem repr_data_head_ne_zero (n : Nat) (h : 1 ≤ n) :
    ∃ c cs, (Nat.repr n).data = c :: cs ∧ c ≠ '0' := by
  have hlt : n < 10 ^ (n + 1) := by
    calc n < 2 ^ n := Nat.lt_two_pow n
    _ ≤ 10 ^ n := Nat.pow_le_pow_left (by norm_num) n
    _ ≤ 10 ^ (n + 1) := Nat.pow_le_pow_right (by norm_num) (Nat.le_succ n)
  obtain ⟨c, cs, hc, hne⟩ := toDigitsCore_head_ne_zero (n + 1) n [] h hlt
  exact ⟨c, cs, hc, hne⟩

theorem repr_ne_of_hasLeadingZero (n : Nat) (s : String)
    (h : hasLeadingZero s = true) : Nat.repr n ≠ s := by
  intro heq
  have hdata : (Nat.repr n).data = s.data := by rw [heq]
  rcases Nat.eq_zero_or_pos n with h0 | hpos
  · subst h0
    have : (Nat.repr 0).data = ['0'] := by decide
    rw [this] at hdata
    unfold hasLeadingZero at h
    rw [← hdata] at h
    simp at h
  · obtain ⟨c, cs, hc, hne⟩ := repr_data_head_ne_zero n hpos
    unfold hasLeadingZero at h
    rw [← hdata, hc] at h
    rcases cs with _ | ⟨c2, cs2⟩
    · simp at h
    · have : c = '0' := by
        by_contra hc0
        cases c
        simp_all
      exact hne this

theorem find?_seg_none {α : Type} (l : List α) (key : α → Nat) (seg : Option String)
    (hseg : ∀ n : Nat, seg ≠ some (Nat.repr n)) :
    l.find? (fun x => seg == some (Nat.repr (key x))) = none := by
  rw [List.find?_eq_none]
  intro x _
  simp only [beq_iff_eq]
  exact hseg (key x)

/-- Whenever the season segment or the episode segment of a reference can
never equal the decimal spelling of any stored number, the stream route
falls through to one of its two 404 responses (the anime lookup still
happens first). -/
theorem resolve_notFound_of_badSeg (store : List Anime) (ref : String)
    (h : (∀ n : Nat, (refSegments ref)[1]? ≠ some (Nat.repr n)) ∨
         (∀ n : Nat, (refSegments ref)[2]? ≠ some (Nat.repr n))) :
    resolveEpisode store ref = .error .animeNotFound ∨
    resolveEpisode store ref = .error .episodeNotFound := by
  simp only [resolveEpisode]
  split
  · exact Or.inl rfl
  · right
    rcases h with h | h
    · rw [find?_seg_none _ Season.seasonNumber _ h]
      rfl
    · rename_i anime heq
      cases hs : anime.seasons.find?
        (fun s => (refSegments ref)[1]? == some (Nat.repr s.seasonNumber)) with
      | none => rfl
      | some se =>
        simp only [Option.some_bind]
        rw [find?_seg_none se.episodes Episode.episodeNumber _ h]

/-! ### Claim theorems: resolver (C2, C9, C10) -/

/-- C2, counterexample: the store holds the anime with the multi-hyphen
slug `shingeki-no-kyojin`, with season 1 / episode 2 present, yet resolving
`shingeki-no-kyojin-1-2` answers `Anime no encontrado`: the resolver does
not treat everything before the last two segments as the anime id, so the
claimed lookup under the full multi-hyphen slug never happens. -/
theorem c2_counterexample :
    skAnime.id = "shingeki-no-kyojin" ∧
    skAnime.seasons = [⟨1, [⟨2, "Episodio 2", "http://cdn/snk.mp4", "1x02.mp4"⟩]⟩] ∧
    resolveEpisode [skAnime] "shingeki-no-kyojin-1-2" = .error .animeNotFound :=
  ⟨rfl, rfl, rfl⟩

/-- C2, amended: decoding splits the reference at every `-` and uses the
first three segments: any successful resolution found its anime by the
first segment of the split, its season by the second segment equalling the
stored season number's exact decimal spelling, and its episode by the third
segment likewise; later segments are ignored. -/
theorem c2_amended_first_three_segments (store : List Anime) (ref : String) (r : ResolveOk)
    (h : resolveEpisode store ref = .ok r) :
    ∃ a, store.find? (fun x => x.id == (refSegments ref).headD "") = some a ∧
      ∃ se, se ∈ a.seasons ∧ (refSegments ref)[1]? = some (Nat.repr se.seasonNumber) ∧
        ∃ ep, ep ∈ se.episodes ∧ (refSegments ref)[2]? = some (Nat.repr ep.episodeNumber) ∧
          r = ⟨ep.videoUrl, a.name, ep.episodeNumber⟩ := by
  simp only [resolveEpisode] at h
  split at h
  · cases h
  · rename_i anime hf
    cases hb : (anime.seasons.find?
        (fun s => (refSegments ref)[1]? == some (Nat.repr s.seasonNumber))).bind
        (fun se => se.episodes.find?
          (fun e => (refSegments ref)[2]? == some (Nat.repr e.episodeNumber))) with
    | none => rw [hb] at h; cases h
    | some ep =>
      rw [hb] at h
      obtain ⟨se, hse, hep⟩ := Option.bind_eq_some.mp hb
      refine ⟨anime, hf, se, List.mem_of_find?_eq_some hse, ?_, ep,
        List.mem_of_find?_eq_some hep, ?_, ?_⟩
      · have := List.find?_some hse
        simpa [beq_iff_eq] using this
      · have := List.find?_some hep
        simpa [beq_iff_eq] using this
      · cases h
        rfl

/-- C2, witness for the amended theorem: resolving `naruto-1-1` succeeds
and the amended decomposition holds there; moreover segments after the
third are ignored (`naruto-1-1-extra` also resolves). -/
theorem c2_amended_witness :
    (∃ a, List.find? (fun x => x.id == (refSegments "naruto-1-1").headD "") [narutoAnime] = some a ∧
      ∃ se, se ∈ a.seasons ∧ (refSegments "naruto-1-1")[1]? = some (Nat.repr se.seasonNumber) ∧
        ∃ ep, ep ∈ se.episodes ∧ (refSegments "naruto-1-1")[2]? = some (Nat.repr ep.episodeNumber) ∧
          (⟨"http://cdn/x.mp4", "Naruto", 1⟩ : ResolveOk) = ⟨ep.videoUrl, a.name, ep.episodeNumber⟩) ∧
    resolveEpisode [narutoAnime] "naruto-1-1-extra" = .ok ⟨"http://cdn/x.mp4", "Naruto", 1⟩ :=
  ⟨c2_amended_first_three_segments [narutoAnime] "naruto-1-1" ⟨"http://cdn/x.mp4", "Naruto", 1⟩ rfl,
   rfl⟩

/-- C9, counterexample: the one-segment reference `naruto` is malformed by
the claim's definition, yet no distinct `MalformedReference` failure
exists: the route still performs the store lookup and collapses the
failure into the same 404s used for absent records (`Anime no encontrado`
against the empty store, `Episodio no encontrado` when the anime exists —
exactly the answer a well-formed reference to a missing episode gets). -/
theorem c9_counterexample :
    resolveEpisode ([] : List Anime) "naruto" = .error .animeNotFound ∧
    resolveEpisode [narutoAnime] "naruto" = .error .episodeNotFound ∧
    resolveEpisode [narutoAnime] "naruto-9-9" = .error .episodeNotFound :=
  ⟨rfl, rfl, rfl⟩

/-- C9, amended: a reference that splits into fewer than three segments,
or whose second or third segment is not the decimal spelling of any
integer, never resolves — but the failure is one of the two generic
NotFound responses (after the anime lookup has been attempted), not a
distinct MalformedReference error. -/
theorem c9_amended_malformed_collapses_to_notFound (store : List Anime) (ref : String)
    (h : (refSegments ref).length < 3 ∨
         (∀ n : Nat, (refSegments ref)[1]? ≠ some (Nat.repr n)) ∨
         (∀ n : Nat, (refSegments ref)[2]? ≠ some (Nat.repr n))) :
    resolveEpisode store ref = .error .animeNotFound ∨
    resolveEpisode store ref = .error .episodeNotFound := by
  apply resolve_notFound_of_badSeg
  rcases h with h | h | h
  · right
    intro n hn
    have hnone : (refSegments ref)[2]? = none := List.getElem?_eq_none (by omega)
    rw [hnone] at hn
    cases hn
  · left; exact h
  · right; exact h

/-- C9, witness for the amended theorem at the malformed reference
`naruto` (one segment), also evaluating the concrete outcome. -/
theorem c9_amended_witness :
    ((refSegments "naruto").length < 3) ∧
    (resolveEpisode [narutoAnime] "naruto" = .error .animeNotFound ∨
     resolveEpisode [narutoAnime] "naruto" = .error .episodeNotFound) :=
  ⟨by decide,
   c9_amended_malformed_collapses_to_notFound [narutoAnime] "naruto" (Or.inl (by decide))⟩

/-- C10: the resolver compares the season and episode segments by string
equality against the decimal `toString()` of the stored numbers, and such
a spelling never carries a leading zero; hence a reference whose season or
episode segment has a leading zero always falls into one of the two 404
NotFound responses, whatever the store holds. -/
theorem c10_leading_zero_not_found (store : List Anime) (ref : String)
    (h : (∃ s, (refSegments ref)[1]? = some s ∧ hasLeadingZero s = true) ∨
         (∃ s, (refSegments ref)[2]? = some s ∧ hasLeadingZero s = true)) :
    resolveEpisode store ref = .error .animeNotFound ∨
    resolveEpisode store ref = .error .episodeNotFound := by
  apply resolve_notFound_of_badSeg
  rcases h with ⟨s, hs, hlz⟩ | ⟨s, hs, hlz⟩
  · left
    intro n hn
    rw [hs] at hn
    exact repr_ne_of_hasLeadingZero n s hlz (Option.some.inj hn).symm
  · right
    intro n hn
    rw [hs] at hn
    exact repr_ne_of_hasLeadingZero n s hlz (Option.some.inj hn).symm

/-- C10, witness: season 1 / episode 1 of `naruto` exist, the padded
reference `naruto-01-1` fails (concretely with `Episodio no encontrado`),
and the unpadded `naruto-1-1` resolves. -/
theorem c10_witness :
    ((refSegments "naruto-01-1")[1]? = some "01" ∧ hasLeadingZero "01" = true) ∧
    (resolveEpisode [narutoAnime] "naruto-01-1" = .error .animeNotFound ∨
     resolveEpisode [narutoAnime] "naruto-01-1" = .error .episodeNotFound) ∧
    resolveEpisode [narutoAnime] "naruto-01-1" = .error .episodeNotFound ∧
    resolveEpisode [narutoAnime] "naruto-1-1" = .ok ⟨"http://cdn/x.mp4", "Naruto", 1⟩ :=
  ⟨⟨rfl, rfl⟩,
   c10_leading_zero_not_found [narutoAnime] "naruto-01-1" (Or.inl ⟨"01", rfl, rfl⟩),
   rfl, rfl⟩

/-! ### Claim theorems: token issuer and verifier (C3, C4, C8) -/

/-- C3: with a configured secret, issuing a token for a non-empty
reference succeeds, and verifying it at any time before the TTL elapses
returns the embedded reference unchanged — `verify(issue(ref)) == ref`. -/
theorem c3_verify_issue_roundtrip (env : Env) (secret : String) (now t : Nat) (ref : String)
    (hsec : env.JWT_SECRET = some secret) (hlen : 32 ≤ secret.length)
    (href : ref ≠ "") (ht : t < now + tokenExpires env) :
    ∃ tok, generateStreamToken env now ref = .ok tok ∧
      (jwtVerify tok secret t).map JwtPayload.episodeId = .ok ref := by
  refine ⟨jwtSign ⟨ref, now, now + tokenExpires env⟩ secret, ?_, ?_⟩
  · simp only [generateStreamToken, hsec]
    rw [if_neg (by omega), if_neg href]
  · unfold jwtVerify jwtSign
    rw [if_neg (by simp), if_neg (by simpa using Nat.not_le.mpr ht)]
    rfl

/-- C3, witness: the round trip at a concrete environment, reference and
issue time, verified at the issue instant. -/
theorem c3_witness :
    goodEnv.JWT_SECRET = some goodSecret ∧ 32 ≤ goodSecret.length ∧
    ("naruto-1-1" : String) ≠ "" ∧ 1000 < 1000 + tokenExpires goodEnv ∧
    ∃ tok, generateStreamToken goodEnv 1000 "naruto-1-1" = .ok tok ∧
      (jwtVerify tok goodSecret 1000).map JwtPayload.episodeId = .ok "naruto-1-1" :=
  ⟨rfl, by decide, by decide, by decide,
   c3_verify_issue_roundtrip goodEnv goodSecret 1000 1000 "naruto-1-1" rfl (by decide)
     (by decide) (by decide)⟩

/-- C4: a token issued at `now0` verifies successfully exactly at the
clock times strictly before `now0 + TTL` (the TTL read from
`TOKEN_EXPIRES`, 300 by default), and fails as expired at or after that
instant; verification is a pure function of the token, the secret and the
clock — there is no server-side token state — so a still-valid token
verifies successfully any number of times. -/
theorem c4_expiry_window (env : Env) (secret : String) (now0 : Nat) (ref : String)
    (tok : SignedToken) (now : Nat)
    (hsec : env.JWT_SECRET = some secret)
    (hg : generateStreamToken env now0 ref = .ok tok) :
    (now0 + tokenExpires env ≤ now → jwtVerify tok secret now = .error .expired) ∧
    (now < now0 + tokenExpires env →
      jwtVerify tok secret now = .ok ⟨ref, now0, now0 + tokenExpires env⟩) ∧
    (∀ ts : List Nat, (∀ t ∈ ts, t < now0 + tokenExpires env) →
      ∀ t ∈ ts, jwtVerify tok secret t = .ok ⟨ref, now0, now0 + tokenExpires env⟩) := by
  simp only [generateStreamToken, hsec] at hg
  by_cases h32 : secret.length < 32
  · rw [if_pos h32] at hg; cases hg
  · rw [if_neg h32] at hg
    by_cases hre : ref = ""
    · rw [if_pos hre] at hg; cases hg
    · rw [if_neg hre] at hg
      cases hg
      have hver : ∀ t : Nat, t < now0 + tokenExpires env →
          jwtVerify (jwtSign ⟨ref, now0, now0 + tokenExpires env⟩ secret) secret t =
            .ok ⟨ref, now0, now0 + tokenExpires env⟩ := by
        intro t htlt
        unfold jwtVerify jwtSign
        rw [if_neg (by simp), if_neg (by simpa using Nat.not_le.mpr htlt)]
      refine ⟨?_, fun hlt => hver now hlt, fun ts hts t htmem => hver t (hts t htmem)⟩
      intro hle
      unfold jwtVerify jwtSign
      rw [if_neg (by simp), if_pos (by simpa using hle)]

/-- C4, witness: a token issued at time 1000 under the default TTL of 300
verifies at times 1000 and 1299 and is rejected as expired at 1300. -/
theorem c4_witness :
    goodEnv.JWT_SECRET = some goodSecret ∧
    generateStreamToken goodEnv 1000 "naruto-1-1" =
      .ok (jwtSign ⟨"naruto-1-1", 1000, 1300⟩ goodSecret) ∧
    jwtVerify (jwtSign ⟨"naruto-1-1", 1000, 1300⟩ goodSecret) goodSecret 1300 =
      .error .expired ∧
    (∀ t ∈ [1000, 1299], jwtVerify (jwtSign ⟨"naruto-1-1", 1000, 1300⟩ goodSecret) goodSecret t =
      .ok ⟨"naruto-1-1", 1000, 1300⟩) := by
  have h := c4_expiry_window goodEnv goodSecret 1000 "naruto-1-1"
    (jwtSign ⟨"naruto-1-1", 1000, 1300⟩ goodSecret) 1300 rfl rfl
  exact ⟨rfl, rfl, h.1 (by decide), h.2.2 [1000, 1299] (by decide)⟩

/-- C8: token issuance fails with the configuration error when the secret
is absent or shorter than 32 characters, fails with the validation error
when the reference is empty, and otherwise succeeds with a token signed by
the secret that embeds the reference and the issue time. -/
theorem c8_issue_error_handling (env : Env) (now : Nat) (ref : String) :
    (env.JWT_SECRET = none → generateStreamToken env now ref = .error .configError) ∧
    (∀ s, env.JWT_SECRET = some s → s.length < 32 →
      generateStreamToken env now ref = .error .configError) ∧
    (∀ s, env.JWT_SECRET = some s → 32 ≤ s.length → ref = "" →
      generateStreamToken env now ref = .error .validationError) ∧
    (∀ s, env.JWT_SECRET = some s → 32 ≤ s.length → ref ≠ "" →
      generateStreamToken env now ref = .ok (jwtSign ⟨ref, now, now + tokenExpires env⟩ s)) := by
  refine ⟨fun hn => ?_, fun s hs h32 => ?_, fun s hs h32 hre => ?_, fun s hs h32 hre => ?_⟩
  · simp only [generateStreamToken, hn]
  · simp only [generateStreamToken, hs]
    rw [if_pos h32]
  · simp only [generateStreamToken, hs]
    rw [if_neg (by omega), if_pos hre]
  · simp only [generateStreamToken, hs]
    rw [if_neg (by omega), if_neg hre]

/-- C8, witness: each of the four branches at concrete inputs — a missing
secret, a short secret, an empty reference, and a successful issuance. -/
theorem c8_witness :
    generateStreamToken ⟨none, none⟩ 7 "naruto-1-1" = .error .configError ∧
    generateStreamToken ⟨some "short", none⟩ 7 "naruto-1-1" = .error .configError ∧
    generateStreamToken goodEnv 7 "" = .error .validationError ∧
    generateStreamToken goodEnv 7 "naruto-1-1" =
      .ok (jwtSign ⟨"naruto-1-1", 7, 7 + tokenExpires goodEnv⟩ goodSecret) :=
  ⟨(c8_issue_error_handling ⟨none, none⟩ 7 "naruto-1-1").1 rfl,
   (c8_issue_error_handling ⟨some "short", none⟩ 7 "naruto-1-1").2.1 "short" rfl (by decide),
   (c8_issue_error_handling goodEnv 7 "").2.2.1 goodSecret rfl (by decide) rfl,
   (c8_issue_error_handling goodEnv 7 "naruto-1-1").2.2.2 goodSecret rfl (by decide) (by decide)⟩

/-! ### Claim theorems: public listing (C1) and parse scenario (C6) -/

/-- C1: every stored record is returned by the listing for its type, every
listing output is the public projection of a stored record, and the episode
objects emitted by that projection carry no `videoUrl` key while preserving
`episodeNumber`, `name` and `fileName`. -/
theorem c1_listing_strips_videoUrl (store : List Anime) (a : Anime) (ha : a ∈ store) :
    animeToPublic a ∈ listAnimes store (if a.isAiring then "airing" else "finished") ∧
    (∀ ty v, v ∈ listAnimes store ty → ∃ b, b ∈ store ∧ v = animeToPublic b) ∧
    ∀ ep : Episode,
      (episodeJson ep).lookup "videoUrl" = none ∧
      (episodeJson ep).lookup "episodeNumber" = some (.num ep.episodeNumber) ∧
      (episodeJson ep).lookup "name" = some (.str ep.name) ∧
      (episodeJson ep).lookup "fileName" = some (.str ep.fileName) := by
  refine ⟨?_, ?_, ?_⟩
  · apply List.mem_map_of_mem
    rw [List.mem_filter]
    refine ⟨ha, ?_⟩
    cases h : a.isAiring <;> simp [h]
  · intro ty v hv
    rw [listAnimes, List.mem_map] at hv
    obtain ⟨b, hb, hbeq⟩ := hv
    exact ⟨b, (List.mem_filter.mp hb).1, hbeq.symm⟩
  · intro ep
    exact ⟨rfl, rfl, rfl, rfl⟩

/-- C1, witness: the stored `naruto` record (a finished title with one
episode) appears in the `finished` listing, and the key facts evaluate at
its episode. -/
theorem c1_witness :
    narutoAnime ∈ [narutoAnime] ∧
    (animeToPublic narutoAnime ∈
      listAnimes [narutoAnime] (if narutoAnime.isAiring then "airing" else "finished") ∧
     (∀ ty v, v ∈ listAnimes [narutoAnime] ty → ∃ b, b ∈ [narutoAnime] ∧ v = animeToPublic b) ∧
     ∀ ep : Episode,
       (episodeJson ep).lookup "videoUrl" = none ∧
       (episodeJson ep).lookup "episodeNumber" = some (.num ep.episodeNumber) ∧
       (episodeJson ep).lookup "name" = some (.str ep.name) ∧
       (episodeJson ep).lookup "fileName" = some (.str ep.fileName)) :=
  ⟨List.mem_singleton.mpr rfl,
   c1_listing_strips_videoUrl [narutoAnime] narutoAnime (List.mem_singleton.mpr rfl)⟩

/-- C6, counterexample: parsing the claimed two-line scenario under the
airing section yields the claimed anime header — but no season and no
episode at all, because the episode regex demands a non-empty prefix
followed by white space before the `1x01` token, which the bare line
`1x01|http://cdn/x.mp4` does not have. -/
theorem c6_counterexample :
    processAnimeData "Naruto 2012 (Lunes)\n1x01|http://cdn/x.mp4" true =
      [⟨"naruto", "Naruto", 2012, some "Lunes", true, []⟩] := by
  rfl

/-- C6, amended: the title line behaves exactly as claimed, and an episode
line carrying a prefix and white space before the `1x01` token (here
`Naruto 1x01|http://cdn/x.mp4`) produces season 1 with the claimed episode
record. -/
theorem c6_amended_scenario :
    processAnimeData "Naruto 2012 (Lunes)\nNaruto 1x01|http://cdn/x.mp4" true =
      [⟨"naruto", "Naruto", 2012, some "Lunes", true,
        [⟨1, [⟨1, "Episodio 1", "http://cdn/x.mp4", "1x01.mp4"⟩]⟩]⟩] := by
  rfl

/-! ### Working-catalog lemmas for the parser claims (C5, C7) -/

theorem lookupEntry_insertReplace_self (m : List (String × Anime)) (k : String) (v : Anime) :
    lookupEntry k (insertReplace m k v) = some v := by
  induction m with
  | nil => simp [insertReplace, lookupEntry]
  | cons kv rest ih =>
    obtain ⟨k0, v0⟩ := kv
    by_cases h : k0 = k
    · simp [insertReplace, h, lookupEntry]
    · simp [insertReplace, h, lookupEntry, ih]

theorem lookupEntry_insertReplace_ne (m : List (String × Anime)) (k kw : String) (v : Anime)
    (h : kw ≠ k) :
    lookupEntry k (insertReplace m kw v) = lookupEntry k m := by
  induction m with
  | nil => simp [insertReplace, lookupEntry, h]
  | cons kv rest ih =>
    obtain ⟨k0, v0⟩ := kv
    by_cases h0 : k0 = kw
    · subst h0
      simp [insertReplace, lookupEntry, h]
    · by_cases hk : k0 = k
      · simp [insertReplace, h0, lookupEntry, hk, Ne.symm h]
      · simp [insertReplace, h0, lookupEntry, hk, ih]

theorem lookupEntry_updateEntry_self (m : List (String × Anime)) (k : String)
    (f : Anime → Anime) :
    lookupEntry k (updateEntry m k f) = (lookupEntry k m).map f := by
  induction m with
  | nil => simp [updateEntry, lookupEntry]
  | cons kv rest ih =>
    obtain ⟨k0, v0⟩ := kv
    by_cases h : k0 = k
    · simp [updateEntry, h, lookupEntry]
    · simp [updateEntry, h, lookupEntry, ih]

theorem lookupEntry_updateEntry_ne (m : List (String × Anime)) (k kw : String)
    (f : Anime → Anime) (h : kw ≠ k) :
    lookupEntry k (updateEntry m kw f) = lookupEntry k m := by
  induction m with
  | nil => simp [updateEntry, lookupEntry]
  | cons kv rest ih =>
    obtain ⟨k0, v0⟩ := kv
    by_cases h0 : k0 = kw
    · subst h0
      simp [updateEntry, lookupEntry, h]
    · by_cases hk : k0 = k
      · simp [updateEntry, h0, lookupEntry, hk, Ne.symm h]
      · simp [updateEntry, h0, lookupEntry, hk, ih]

theorem mem_insertReplace (m : List (String × Anime)) (k : String) (v : Anime) :
    ∀ kv ∈ insertReplace m k v, kv ∈ m ∨ kv = (k, v) := by
  induction m with
  | nil => simp [insertReplace]
  | cons kv0 rest ih =>
    obtain ⟨k0, v0⟩ := kv0
    by_cases h : k0 = k
    · subst h
      intro kv hkv
      rw [insertReplace, if_pos rfl] at hkv
      rcases List.mem_cons.mp hkv with h1 | h1
      · exact Or.inr (by simpa using h1)
      · exact Or.inl (List.mem_cons_of_mem _ h1)
    · intro kv hkv
      rw [insertReplace, if_neg h] at hkv
      rcases List.mem_cons.mp hkv with h1 | h1
      · exact Or.inl (h1 ▸ List.mem_cons_self _ _)
      · rcases ih kv h1 with h2 | h2
        · exact Or.inl (List.mem_cons_of_mem _ h2)
        · exact Or.inr h2

theorem mem_updateEntry (m : List (String × Anime)) (k : String) (f : Anime → Anime) :
    ∀ kv ∈ updateEntry m k f, kv ∈ m ∨ ∃ v0, (k, v0) ∈ m ∧ kv = (k, f v0) := by
  induction m with
  | nil => simp [updateEntry]
  | cons kv0 rest ih =>
    obtain ⟨k0, v0⟩ := kv0
    by_cases h : k0 = k
    · subst h
      intro kv hkv
      rw [updateEntry, if_pos rfl] at hkv
      rcases List.mem_cons.mp hkv with h1 | h1
      · exact Or.inr ⟨v0, List.mem_cons_self _ _, h1⟩
      · exact Or.inl (List.mem_cons_of_mem _ h1)
    · intro kv hkv
      rw [updateEntry, if_neg h] at hkv
      rcases List.mem_cons.mp hkv with h1 | h1
      · exact Or.inl (h1 ▸ List.mem_cons_self _ _)
      · rcases ih kv h1 with h2 | ⟨w, hw, hkveq⟩
        · exact Or.inl (List.mem_cons_of_mem _ h2)
        · exact Or.inr ⟨w, List.mem_cons_of_mem _ hw, hkveq⟩

/-- The fresh record written by a title line with captures `nameCs`, `yr`,
`dy` (matching the title branch of `step`). -/
theorem step_of_empty (airing : Bool) (s : PState) (y : List Char)
    (h : (trimList y).isEmpty = true) : step airing s y = s := by
  simp [step, h]

theorem step_of_title (airing : Bool) (s : PState) (y : List Char)
    (nameCs : List Char) (yr : Nat) (dy : Option (List Char))
    (h1 : (trimList y).isEmpty = false)
    (h2 : titleSearch airing [] (trimList y) = some (nameCs, yr, dy)) :
    step airing s y =
      ⟨insertReplace s.map (mkTitleAnime airing nameCs yr dy).id (mkTitleAnime airing nameCs yr dy),
        some (mkTitleAnime airing nameCs yr dy).id⟩ := by
  simp [step, h1, h2]

theorem step_of_nocontext (airing : Bool) (s : PState) (y : List Char)
    (h1 : (trimList y).isEmpty = false)
    (h2 : titleSearch airing [] (trimList y) = none)
    (h3 : s.curr = none) : step airing s y = s := by
  simp [step, h1, h2, h3]

theorem step_of_nopipe (airing : Bool) (s : PState) (y : List Char) (cid : String)
    (h1 : (trimList y).isEmpty = false)
    (h2 : titleSearch airing [] (trimList y) = none)
    (h3 : s.curr = some cid)
    (h4 : '|' ∉ trimList y) : step airing s y = s := by
  simp [step, h1, h2, h3, h4]

theorem step_of_epfail (airing : Bool) (s : PState) (y : List Char) (cid : String)
    (h1 : (trimList y).isEmpty = false)
    (h2 : titleSearch airing [] (trimList y) = none)
    (h3 : s.curr = some cid)
    (h4 : '|' ∈ trimList y)
    (h5 : epSearch (trimList y) = none) : step airing s y = s := by
  simp [step, h1, h2, h3, h4, h5]

theorem step_of_episode (airing : Bool) (s : PState) (y : List Char) (cid : String)
    (sn en : Nat) (urlCs : List Char)
    (h1 : (trimList y).isEmpty = false)
    (h2 : titleSearch airing [] (trimList y) = none)
    (h3 : s.curr = some cid)
    (h4 : '|' ∈ trimList y)
    (h5 : epSearch (trimList y) = some (sn, en, urlCs)) :
    step airing s y =
      ⟨updateEntry s.map cid
        (fun a => { a with seasons := addEpisode a.seasons sn (mkEpisode sn en urlCs) }),
        s.curr⟩ := by
  simp [step, h1, h2, h3, h4, h5]

/-- The lookup at a fixed key, together with the active context, evolves
identically from two states that agree on both: episode lines touch only
the entry of the shared context, title lines overwrite the key's entry the
same way on both sides. -/
theorem step_preserves_lookup (airing : Bool) (id : String) (y : List Char) (s t : PState)
    (hc : s.curr = t.curr) (hm : lookupEntry id s.map = lookupEntry id t.map) :
    (step airing s y).curr = (step airing t y).curr ∧
    lookupEntry id (step airing s y).map = lookupEntry id (step airing t y).map := by
  cases hE : (trimList y).isEmpty with
  | true => rw [step_of_empty airing s y hE, step_of_empty airing t y hE]; exact ⟨hc, hm⟩
  | false =>
    cases hT : titleSearch airing [] (trimList y) with
    | some r =>
      obtain ⟨nameCs, yr, dy⟩ := r
      rw [step_of_title airing s y nameCs yr dy hE hT,
          step_of_title airing t y nameCs yr dy hE hT]
      refine ⟨rfl, ?_⟩
      by_cases hid : (mkTitleAnime airing nameCs yr dy).id = id
      · rw [hid, lookupEntry_insertReplace_self, lookupEntry_insertReplace_self]
      · rw [lookupEntry_insertReplace_ne _ _ _ _ hid, lookupEntry_insertReplace_ne _ _ _ _ hid]
        exact hm
    | none =>
      cases hcur : s.curr with
      | none =>
        rw [step_of_nocontext airing s y hE hT hcur,
            step_of_nocontext airing t y hE hT (hc ▸ hcur)]
        exact ⟨hc, hm⟩
      | some cid =>
        have hcur' : t.curr = some cid := hc ▸ hcur
        by_cases hP : '|' ∈ trimList y
        case neg =>
          rw [step_of_nopipe airing s y cid hE hT hcur hP,
              step_of_nopipe airing t y cid hE hT hcur' hP]
          exact ⟨hc, hm⟩
        case pos =>
          cases hS : epSearch (trimList y) with
          | none =>
            rw [step_of_epfail airing s y cid hE hT hcur hP hS,
                step_of_epfail airing t y cid hE hT hcur' hP hS]
            exact ⟨hc, hm⟩
          | some r =>
            obtain ⟨sn, en, urlCs⟩ := r
            rw [step_of_episode airing s y cid sn en urlCs hE hT hcur hP hS,
                step_of_episode airing t y cid sn en urlCs hE hT hcur' hP hS]
            refine ⟨by rw [hcur, hcur'], ?_⟩
            by_cases hid : cid = id
            · subst hid
              rw [lookupEntry_updateEntry_self, lookupEntry_updateEntry_self, hm]
            · rw [lookupEntry_updateEntry_ne _ _ _ _ hid, lookupEntry_updateEntry_ne _ _ _ _ hid]
              exact hm

theorem foldl_preserves_lookup (airing : Bool) (id : String) (ys : List (List Char)) :
    ∀ (s t : PState), s.curr = t.curr →
      lookupEntry id s.map = lookupEntry id t.map →
      (ys.foldl (step airing) s).curr = (ys.foldl (step airing) t).curr ∧
      lookupEntry id (ys.foldl (step airing) s).map =
        lookupEntry id (ys.foldl (step airing) t).map := by
  induction ys with
  | nil => exact fun s t hc hm => ⟨hc, hm⟩
  | cons y ys ih =>
    intro s t hc hm
    obtain ⟨hc2, hm2⟩ := step_preserves_lookup airing id y s t hc hm
    exact ih _ _ hc2 hm2

/-! ### Claim theorems: title collision (C7) -/

/-- C7: when a title line for slug `id` occurs, the working catalog's
entry for `id` after the whole run is exactly what it would be had the
input started at that title line: everything accumulated for `id` by
earlier lines — the record of an earlier colliding title together with all
its seasons and episodes — is discarded. -/
theorem c7_title_collision_overwrites (airing : Bool) (xs ys : List (List Char))
    (line : List Char) (id : String) (h : titleIdOf airing line = some id) :
    lookupEntry id (runLines airing (xs ++ line :: ys)).map =
      lookupEntry id (runLines airing (line :: ys)).map := by
  unfold runLines
  rw [List.foldl_append, List.foldl_cons, List.foldl_cons]
  unfold titleIdOf at h
  by_cases hE : (trimList line).isEmpty
  · rw [if_pos hE] at h
    cases h
  · rw [if_neg hE] at h
    rw [Bool.not_eq_true] at hE
    obtain ⟨r, hT, hid⟩ := Option.map_eq_some'.mp h
    obtain ⟨nameCs, yr, dy⟩ := r
    have hid' : (mkTitleAnime airing nameCs yr dy).id = id := hid
    refine (foldl_preserves_lookup airing id ys _ _ ?_ ?_).2
    · rw [step_of_title airing _ line nameCs yr dy hE hT,
          step_of_title airing _ line nameCs yr dy hE hT]
    · rw [step_of_title airing _ line nameCs yr dy hE hT,
          step_of_title airing _ line nameCs yr dy hE hT]
      simp only [hid']
      rw [lookupEntry_insertReplace_self, lookupEntry_insertReplace_self]

/-- C7, witness: with two colliding `Naruto` title lines, the final entry
for `naruto` ignores the first title and its episode, and concretely holds
only the year-2013 record with the episode accumulated after the second
title. -/
theorem c7_witness :
    titleIdOf false "Naruto 2013".data = some "naruto" ∧
    lookupEntry "naruto"
        (runLines false
          ["Naruto 2012".data, "q 1x1|u1".data, "Naruto 2013".data, "q 1x2|u2".data]).map =
      lookupEntry "naruto" (runLines false ["Naruto 2013".data, "q 1x2|u2".data]).map ∧
    lookupEntry "naruto" (runLines false ["Naruto 2013".data, "q 1x2|u2".data]).map =
      some ⟨"naruto", "Naruto", 2013, none, false,
        [⟨1, [⟨2, "Episodio 2", "u2", "1x02.mp4"⟩]⟩]⟩ :=
  ⟨rfl,
   c7_title_collision_overwrites false ["Naruto 2012".data, "q 1x1|u1".data]
     ["q 1x2|u2".data] "Naruto 2013".data "naruto" rfl,
   rfl⟩

/-! ### Season-key uniqueness invariant and sortedness (C5) -/

theorem addEpisode_keys (seasons : List Season) (sn : Nat) (ep : Episode) :
    (addEpisode seasons sn ep).map Season.seasonNumber = seasons.map Season.seasonNumber ∨
    ((addEpisode seasons sn ep).map Season.seasonNumber
        = seasons.map Season.seasonNumber ++ [sn] ∧
      sn ∉ seasons.map Season.seasonNumber) := by
  induction seasons with
  | nil => right; simp [addEpisode]
  | cons se rest ih =>
    by_cases h : se.seasonNumber = sn
    · left
      simp [addEpisode, h]
    · rcases ih with ih | ⟨ih1, ih2⟩
      · left
        simp [addEpisode, h, ih]
      · right
        constructor
        · simp [addEpisode, h, ih1]
        · simp only [List.map_cons, List.mem_cons, not_or]
          exact ⟨fun heq => h heq.symm, ih2⟩

theorem addEpisode_nodup (seasons : List Season) (sn : Nat) (ep : Episode)
    (h : (seasons.map Season.seasonNumber).Nodup) :
    ((addEpisode seasons sn ep).map Season.seasonNumber).Nodup := by
  rcases addEpisode_keys seasons sn ep with hk | ⟨hk, hni⟩
  · rw [hk]; exact h
  · rw [hk]
    rw [List.nodup_append]
    refine ⟨h, List.nodup_singleton sn, ?_⟩
    intro a ha hmem
    rw [List.mem_singleton] at hmem
    exact hni (hmem ▸ ha)

/-- Every record in the working catalog keeps pairwise-distinct season
numbers: title lines write a record with no seasons, and an episode line
either updates an existing season bucket or appends a fresh number. -/
theorem runLines_seasonKeys_nodup (airing : Bool) (lines : List (List Char)) :
    ∀ kv ∈ (runLines airing lines).map, (kv.2.seasons.map Season.seasonNumber).Nodup := by
  suffices h : ∀ (s : PState),
      (∀ kv ∈ s.map, (kv.2.seasons.map Season.seasonNumber).Nodup) →
      ∀ kv ∈ (lines.foldl (step airing) s).map,
        (kv.2.seasons.map Season.seasonNumber).Nodup by
    exact h ⟨[], none⟩ (by simp)
  induction lines with
  | nil => exact fun s hs => hs
  | cons y ys ih =>
    intro s hs
    rw [List.foldl_cons]
    refine ih _ ?_
    intro kv hkv
    cases hE : (trimList y).isEmpty with
    | true =>
      rw [step_of_empty airing s y hE] at hkv
      exact hs kv hkv
    | false =>
      cases hT : titleSearch airing [] (trimList y) with
      | some r =>
        obtain ⟨nameCs, yr, dy⟩ := r
        rw [step_of_title airing s y nameCs yr dy hE hT] at hkv
        rcases mem_insertReplace _ _ _ kv hkv with hmem | hfresh
        · exact hs kv hmem
        · rw [hfresh]
          simp [mkTitleAnime]
      | none =>
        cases hcur : s.curr with
        | none =>
          rw [step_of_nocontext airing s y hE hT hcur] at hkv
          exact hs kv hkv
        | some cid =>
          by_cases hP : '|' ∈ trimList y
          case neg =>
            rw [step_of_nopipe airing s y cid hE hT hcur hP] at hkv
            exact hs kv hkv
          case pos =>
            cases hS : epSearch (trimList y) with
            | none =>
              rw [step_of_epfail airing s y cid hE hT hcur hP hS] at hkv
              exact hs kv hkv
            | some r =>
              obtain ⟨sn, en, urlCs⟩ := r
              rw [step_of_episode airing s y cid sn en urlCs hE hT hcur hP hS] at hkv
              rcases mem_updateEntry _ _ _ kv hkv with hmem | ⟨v0, hv0, hkveq⟩
              · exact hs kv hmem
              · rw [hkveq]
                exact addEpisode_nodup _ _ _ (hs (cid, v0) hv0)

/-- C5, counterexample: the same episode line twice under one title
produces two episodes with equal `episodeNumber` in the final output, so
the claimed strictly-increasing, pairwise-unique episode numbers fail. -/
theorem c5_counterexample :
    ¬ (∀ a ∈ processAnimeData "Naruto 2012\np 1x1|u1\np 1x1|u2" false,
        a.seasons.Pairwise (fun s t => s.seasonNumber < t.seasonNumber) ∧
        ∀ se ∈ a.seasons,
          se.episodes.Pairwise (fun e f => e.episodeNumber < f.episodeNumber)) := by
  decide

/-- C5, amended: in every parsed record the season list is strictly
increasing (hence pairwise-unique) in `seasonNumber`, and within each
season the episode list is sorted in non-decreasing order of
`episodeNumber` — but duplicate episode numbers coming from repeated
episode lines are all retained, so the episode ordering is not strict in
general. -/
theorem c5_amended_sorted (data : String) (airing : Bool) (a : Anime)
    (ha : a ∈ processAnimeData data airing) :
    a.seasons.Pairwise (fun s t => s.seasonNumber < t.seasonNumber) ∧
    ∀ se ∈ a.seasons, se.episodes.Pairwise (fun e f => e.episodeNumber ≤ f.episodeNumber) := by
  unfold processAnimeData at ha
  rw [List.mem_map] at ha
  obtain ⟨kv, hkv, hfin⟩ := ha
  have hnd : (kv.2.seasons.map Season.seasonNumber).Nodup :=
    runLines_seasonKeys_nodup airing _ kv hkv
  subst hfin
  unfold finalizeAnime
  haveI : IsTotal Season (fun s t => s.seasonNumber ≤ t.seasonNumber) :=
    ⟨fun a b => Nat.le_total _ _⟩
  haveI : IsTrans Season (fun s t => s.seasonNumber ≤ t.seasonNumber) :=
    ⟨fun a b c hab hbc => Nat.le_trans hab hbc⟩
  haveI : IsTotal Episode (fun e f => e.episodeNumber ≤ f.episodeNumber) :=
    ⟨fun a b => Nat.le_total _ _⟩
  haveI : IsTrans Episode (fun e f => e.episodeNumber ≤ f.episodeNumber) :=
    ⟨fun a b c hab hbc => Nat.le_trans hab hbc⟩
  constructor
  · have hsorted := List.sorted_insertionSort
      (fun s t => s.seasonNumber ≤ t.seasonNumber)
      (kv.2.seasons.map (fun se =>
        { se with episodes :=
            List.insertionSort (fun e f => e.episodeNumber ≤ f.episodeNumber) se.episodes }))
    have hperm := List.perm_insertionSort
      (fun s t => s.seasonNumber ≤ t.seasonNumber)
      (kv.2.seasons.map (fun se =>
        { se with episodes :=
            List.insertionSort (fun e f => e.episodeNumber ≤ f.episodeNumber) se.episodes }))
    have hnd2 : ((List.insertionSort (fun s t => s.seasonNumber ≤ t.seasonNumber)
        (kv.2.seasons.map (fun se =>
          { se with episodes :=
              List.insertionSort (fun e f => e.episodeNumber ≤ f.episodeNumber) se.episodes }))).map
        Season.seasonNumber).Nodup := by
      refine ((hperm.map Season.seasonNumber).nodup_iff).mpr ?_
      rw [List.map_map]
      exact hnd
    rw [List.Nodup, List.pairwise_map] at hnd2
    exact (hsorted.and hnd2).imp (fun h => Nat.lt_of_le_of_ne h.1 h.2)
  · intro se hse
    rw [List.mem_insertionSort, List.mem_map] at hse
    obtain ⟨se0, _, hse0⟩ := hse
    rw [← hse0]
    exact List.sorted_insertionSort (fun e f => e.episodeNumber ≤ f.episodeNumber) se0.episodes

/-- C5, witness for the amended theorem at the duplicate-episode input:
its single output record satisfies the amended ordering. -/
theorem c5_amended_witness :
    (⟨"naruto", "Naruto", 2012, none, false,
        [⟨1, [⟨1, "Episodio 1", "u1", "1x01.mp4"⟩, ⟨1, "Episodio 1", "u2", "1x01.mp4"⟩]⟩]⟩ : Anime) ∈
      processAnimeData "Naruto 2012\np 1x1|u1\np 1x1|u2" false ∧
    ((⟨"naruto", "Naruto", 2012, none, false,
        [⟨1, [⟨1, "Episodio 1", "u1", "1x01.mp4"⟩, ⟨1, "Episodio 1", "u2", "1x01.mp4"⟩]⟩]⟩ : Anime).seasons.Pairwise
        (fun s t => s.seasonNumber < t.seasonNumber) ∧
      ∀ se ∈ (⟨"naruto", "Naruto", 2012, none, false,
        [⟨1, [⟨1, "Episodio 1", "u1", "1x01.mp4"⟩, ⟨1, "Episodio 1", "u2", "1x01.mp4"⟩]⟩]⟩ : Anime).seasons,
        se.episodes.Pairwise (fun e f => e.episodeNumber ≤ f.episodeNumber)) :=
  ⟨by decide,
   c5_amended_sorted "Naruto 2012\np 1x1|u1\np 1x1|u2" false _ (by decide)⟩

end Streanime
